import Mathlib

set_option maxRecDepth 100000
set_option exponentiation.threshold 4000

/-!
Bank account (assignment3.cpp)

A shallow embedding of the class BankAccount and of the driver main.

* The object is a record of its three private members.
* A member function takes the object and its arguments and returns the pair of
  what the call did (returned normally, or threw an exception) and the object
  as it is after the call.  A throw in C++ leaves the members as they were at
  the throw statement, so the object after a failed call is part of the result
  and is computed, not assumed.
* The C++ type double is embedded as IEEE 754 binary64: NaN, the two
  infinities, and the finite values with their sign (so both zeros).  Sums and
  differences are the exact result rounded to nearest, ties to even, with
  overflow to infinity; comparisons are the IEEE ones, false on NaN.  Each
  expression is evaluated in double (FLT_EVAL_METHOD 0, the default rounding
  mode); NaN payloads are not told apart.
-/

namespace Assignment3

/-- A value of the C++ type double.  A finite double is a sign and a magnitude
counted in units of 2^-1074, the smallest positive double: every finite double
is a whole number of units.  The magnitudes of doubles are below 2^2098 units
(that is 2^1024) and have at most 53 significant bits; isDouble tells these
from the other values of the type, and every sum, difference and converted
integer is one of them (isDouble_add, isDouble_sub, isDouble_ofInt).  A
statement about every value of the type holds of every double. -/
inductive Double where
  | nan
  | inf (negative : Bool)
  | finite (negative : Bool) (units : ℕ)
  deriving DecidableEq, Repr

namespace Double

/-- The signed number of units of a finite double. -/
def signed (negative : Bool) (units : ℕ) : ℤ :=
  if negative then -(units : ℤ) else (units : ℤ)

/-- How many low bits a magnitude has beyond 53 significant bits: halve until
the magnitude is below 2^53.  The first argument bounds the number of
halvings; the magnitude itself is always enough. -/
def shiftOf : ℕ → ℕ → ℕ
  | 0, _ => 0
  | fuel + 1, n => if n < 2 ^ 53 then 0 else shiftOf fuel (n / 2) + 1

/-- A magnitude that needs no rounding: its bits beyond the 53 leading ones
are all zero. -/
def representable (n : ℕ) : Bool :=
  decide (n % 2 ^ shiftOf n n = 0)

/-- The values of the type that are doubles: a finite one has a representable
magnitude below 2^1024. -/
def isDouble : Double → Bool
  | finite _ n => representable n && decide (n < 2 ^ 2098)
  | _ => true

/-- An exact magnitude rounded to 53 significant bits, to nearest, ties to the
even significand. -/
def roundedUnits (n : ℕ) : ℕ :=
  if 2 ^ shiftOf n n < 2 * (n % 2 ^ shiftOf n n)
      ∨ (2 * (n % 2 ^ shiftOf n n) = 2 ^ shiftOf n n ∧ (n / 2 ^ shiftOf n n) % 2 = 1) then
    (n / 2 ^ shiftOf n n + 1) * 2 ^ shiftOf n n
  else
    (n / 2 ^ shiftOf n n) * 2 ^ shiftOf n n

/-- The double nearest to an exact value given by sign and magnitude: the
rounded magnitude, or infinity when that reaches 2^1024. -/
def roundMag (negative : Bool) (n : ℕ) : Double :=
  if 2 ^ 2098 ≤ roundedUnits n then inf negative else finite negative (roundedUnits n)

/-- The operator + on doubles.  NaN if an operand is NaN or the operands are
infinities of opposite sign; an infinite operand otherwise wins; two finite
operands give their exact sum rounded, an exact sum of zero being -0 only
when both operands are -0. -/
def add : Double → Double → Double
  | nan, _ => nan
  | _, nan => nan
  | inf a, inf b => if a = b then inf a else nan
  | inf a, finite _ _ => inf a
  | finite _ _, inf b => inf b
  | finite s1 n1, finite s2 n2 =>
    if signed s1 n1 + signed s2 n2 = 0 then finite (s1 && s2) 0
    else roundMag (decide (signed s1 n1 + signed s2 n2 < 0))
      (signed s1 n1 + signed s2 n2).natAbs

/-- The unary minus on doubles: the sign bit flipped. -/
def neg : Double → Double
  | nan => nan
  | inf a => inf (!a)
  | finite s n => finite (!s) n

/-- The operator - on doubles: x - y is x + (-y). -/
def sub (x y : Double) : Double := add x (neg y)

/-- The operator < on doubles: false when an operand is NaN; the two zeros
are equal. -/
def lt : Double → Double → Bool
  | nan, _ => false
  | _, nan => false
  | inf a, inf b => a && !b
  | inf a, finite _ _ => a
  | finite _ _, inf b => !b
  | finite s1 n1, finite s2 n2 => decide (signed s1 n1 < signed s2 n2)

/-- The operator > on doubles. -/
def gt (x y : Double) : Bool := lt y x

/-- The operator <= on doubles: false when an operand is NaN. -/
def le : Double → Double → Bool
  | nan, _ => false
  | _, nan => false
  | inf a, inf b => a || !b
  | inf a, finite _ _ => a
  | finite _ _, inf b => !b
  | finite s1 n1, finite s2 n2 => decide (signed s1 n1 ≤ signed s2 n2)

/-- The operator >= on doubles. -/
def ge (x y : Double) : Bool := le y x

/-- The conversion of an integer to double, as for the int literals of the
source (0, 1000, 500, -100, 100). -/
def ofInt (z : ℤ) : Double :=
  if z = 0 then finite false 0 else roundMag (decide (z < 0)) (z.natAbs * 2 ^ 1074)

/-- Whether the double is NaN. -/
def isNaN : Double → Bool
  | nan => true
  | _ => false

/-- Whether the double is finite: neither NaN nor an infinity. -/
def isFinite : Double → Bool
  | finite _ _ => true
  | _ => false

/-- The exact number a finite double stands for (0 for NaN and the
infinities, which stand for no number). -/
def value : Double → ℚ
  | finite s n => (signed s n : ℚ) / 2 ^ 1074
  | _ => 0

/-- Whether the sum of two doubles is computed without rounding: both are
finite and their exact sum is a finite double. -/
def exactAdd : Double → Double → Bool
  | finite s1 n1, finite s2 n2 =>
    representable (signed s1 n1 + signed s2 n2).natAbs
      && decide ((signed s1 n1 + signed s2 n2).natAbs < 2 ^ 2098)
  | _, _ => false

/-- Whether the difference of two doubles is computed without rounding. -/
def exactSub (x y : Double) : Bool := exactAdd x (neg y)

end Double

/-- The three exception classes of the source, each derived from
std::runtime_error and carrying a fixed message. -/
inductive Exn where
  | NegativeDepositException
  | OverdrawException
  | InvalidAccountOperationException
  deriving DecidableEq, Repr

/-- The message each exception class passes to std::runtime_error. -/
def Exn.what : Exn → String
  | .NegativeDepositException => "Negative deposit attempt"
  | .OverdrawException => "Withdrawal amount exceeds current balance"
  | .InvalidAccountOperationException => "Invalid operation on a closed account"

/-- How a call ended: it returned a value, or it threw. -/
inductive Outcome (α : Type) where
  | returned (v : α)
  | threw (e : Exn)
  deriving DecidableEq, Repr

/-- The private members of class BankAccount. -/
structure BankAccount where
  accountNumber : String
  balance : Double
  isActive : Bool
  deriving DecidableEq, Repr

namespace BankAccount

/-- The constructor: BankAccount(accNum, initialBalance) with the member
initialisers accountNumber(accNum), balance(initialBalance), isActive(true). -/
def new (accNum : String) (initialBalance : Double) : BankAccount :=
  { accountNumber := accNum, balance := initialBalance, isActive := true }

/-- The member function deposit: source lines 44 to 50. -/
def deposit (self : BankAccount) (amount : Double) : Outcome Unit × BankAccount :=
  if !self.isActive then
    (.threw .InvalidAccountOperationException, self)
  else if Double.lt amount (Double.ofInt 0) then
    (.threw .NegativeDepositException, self)
  else
    (.returned (), { self with balance := Double.add self.balance amount })

/-- The member function withdraw: source lines 54 to 60. -/
def withdraw (self : BankAccount) (amount : Double) : Outcome Unit × BankAccount :=
  if !self.isActive then
    (.threw .InvalidAccountOperationException, self)
  else if Double.gt amount self.balance then
    (.threw .OverdrawException, self)
  else
    (.returned (), { self with balance := Double.sub self.balance amount })

/-- The const member function getBalance: source lines 64 to 66. -/
def getBalance (self : BankAccount) : Outcome Double × BankAccount :=
  (.returned self.balance, self)

/-- The member function closeAccount: source lines 70 to 73. -/
def closeAccount (self : BankAccount) : Outcome Unit × BankAccount :=
  (.returned (), { self with isActive := false })

end BankAccount

open BankAccount

/-! Callers.

The claims about sequences of calls need a caller.  A caller makes one call
after another on the same object and catches whatever a call throws, so the
next call sees the object as the previous one left it. -/

/-- One call of a mutating member function, with its argument. -/
inductive Op where
  | deposit (amount : Double)
  | withdraw (amount : Double)
  | closeAccount
  deriving DecidableEq, Repr

/-- Dispatch of one call to the member function it names. -/
def step (s : BankAccount) : Op → Outcome Unit × BankAccount
  | .deposit amount => s.deposit amount
  | .withdraw amount => s.withdraw amount
  | .closeAccount => s.closeAccount

/-- The calls of a sequence in order: for each call, what it did and the
object after it. -/
def trace (s : BankAccount) : List Op → List (Op × Outcome Unit × BankAccount)
  | [] => []
  | op :: ops => (op, step s op) :: trace (step s op).2 ops

/-- The object after a whole sequence of calls. -/
def run (s : BankAccount) : List Op → BankAccount
  | [] => s
  | op :: ops => run (step s op).2 ops

/-- What the driver writes: text to std::cout, the balance it prints after
the text Current Balance (how a double is formatted is outside the model),
and text to std::cerr. -/
inductive Event where
  | cout (text : String)
  | coutBalance (balance : Double)
  | cerr (text : String)
  deriving DecidableEq, Repr

/-- The handler of the outer try block of main: catch (const std::exception& e)
writes Error and the message. -/
def outerCatch (e : Exn) : List Event :=
  [.cerr ("Error: " ++ e.what ++ "\n")]

/-- The function main: source lines 77 to 119, as a function of the double read
from std::cin.  It returns what was written, in order, and the account as it
is when control leaves the outer try block.  A member function that throws
outside an inner try block, or throws a class the inner handler does not
name, is caught by the outer handler, which skips the rest of the block. -/
def main (initialBalance : Double) : List Event × BankAccount :=
  let out0 : List Event := [.cout "Enter initial balance: "]
  let account := BankAccount.new "123456" initialBalance
  let out1 := out0 ++ [.cout "Bank Account Created: #123456\n", .cout "Depositing $1000...\n"]
  match account.deposit (Double.ofInt 1000) with
  | (.threw e, account) => (out1 ++ outerCatch e, account)
  | (.returned _, account) =>
    let out2 := out1 ++ [.cout "Withdrawing $500...\n"]
    match account.withdraw (Double.ofInt 500) with
    | (.threw e, account) => (out2 ++ outerCatch e, account)
    | (.returned _, account) =>
      match account.getBalance with
      | (.threw e, account) => (out2 ++ outerCatch e, account)
      | (.returned b, account) =>
        let out3 := out2 ++ [.coutBalance b, .cout "\nTesting negative deposit...\n"]
        let afterNegativeDeposit : Option Exn × List Event × BankAccount :=
          match account.deposit (Double.ofInt (-100)) with
          | (.returned _, account) => (none, out3, account)
          | (.threw .NegativeDepositException, account) =>
            (none, out3 ++ [.cerr ("Caught NegativeDepositException: "
              ++ Exn.what .NegativeDepositException ++ "\n")], account)
          | (.threw e, account) => (some e, out3, account)
        match afterNegativeDeposit with
        | (some e, out4, account) => (out4 ++ outerCatch e, account)
        | (none, out4, account) =>
          let out5 := out4 ++ [.cout "\nClosing account...\n"]
          match account.closeAccount with
          | (.threw e, account) => (out5 ++ outerCatch e, account)
          | (.returned _, account) =>
            let out6 := out5 ++ [.cout "Testing transaction on a closed account...\n"]
            match account.withdraw (Double.ofInt 100) with
            | (.returned _, account) => (out6, account)
            | (.threw .InvalidAccountOperationException, account) =>
              (out6 ++ [.cerr ("Caught InvalidAccountOperationException: "
                ++ Exn.what .InvalidAccountOperationException ++ "\n")], account)
            | (.threw e, account) => (out6 ++ outerCatch e, account)

/-- The sum, as exact numbers, of the amounts of the deposits of a trace that
returned normally. -/
def succeededDeposits : List (Op × Outcome Unit × BankAccount) → ℚ
  | [] => 0
  | (.deposit amount, .returned _, _) :: rest => amount.value + succeededDeposits rest
  | _ :: rest => succeededDeposits rest

/-- The sum, as exact numbers, of the amounts of the withdrawals of a trace
that returned normally. -/
def succeededWithdrawals : List (Op × Outcome Unit × BankAccount) → ℚ
  | [] => 0
  | (.withdraw amount, .returned _, _) :: rest => amount.value + succeededWithdrawals rest
  | _ :: rest => succeededWithdrawals rest

/-- Whether every deposit and withdrawal of the sequence that returns normally
computes its new balance without rounding. -/
def exactRun (s : BankAccount) : List Op → Bool
  | [] => true
  | .deposit amount :: ops =>
    (if (s.deposit amount).1 = .returned () then Double.exactAdd s.balance amount else true)
      && exactRun (s.deposit amount).2 ops
  | .withdraw amount :: ops =>
    (if (s.withdraw amount).1 = .returned () then Double.exactSub s.balance amount else true)
      && exactRun (s.withdraw amount).2 ops
  | .closeAccount :: ops => exactRun s.closeAccount.2 ops

/-! Rounding. -/

namespace Double

/-- The shift leaves fewer than 54 bits, and when it is not zero it leaves
exactly 53. -/
lemma shiftOf_spec (fuel n : ℕ) (h : n ≤ fuel) :
    n / 2 ^ shiftOf fuel n < 2 ^ 53
    ∧ (shiftOf fuel n ≠ 0 → 2 ^ 52 ≤ n / 2 ^ shiftOf fuel n) := by
  induction fuel generalizing n with
  | zero =>
    have hn : n = 0 := Nat.le_zero.mp h
    subst hn
    simp [shiftOf]
  | succ fuel ih =>
    unfold shiftOf
    split_ifs with hlt
    · simpa using hlt
    · have hge : 2 ^ 53 ≤ n := not_lt.mp hlt
      have hhalf : n / 2 ≤ fuel := by omega
      have hdiv : n / 2 ^ (shiftOf fuel (n / 2) + 1) = n / 2 / 2 ^ shiftOf fuel (n / 2) := by
        rw [pow_succ, mul_comm, Nat.div_div_eq_div_mul]
      rw [hdiv]
      refine ⟨(ih (n / 2) hhalf).1, fun _ => ?_⟩
      by_cases hk : shiftOf fuel (n / 2) = 0
      · rw [hk]
        simp only [pow_zero, Nat.div_one]
        omega
      · exact (ih (n / 2) hhalf).2 hk

/-- A magnitude is below 2^53 shifted back. -/
lemma lt_of_shiftOf (n : ℕ) : n < 2 ^ 53 * 2 ^ shiftOf n n :=
  (Nat.div_lt_iff_lt_mul (by positivity)).mp (shiftOf_spec n n le_rfl).1

/-- A magnitude with a shift that is not zero is at least 2^52 shifted back. -/
lemma le_of_shiftOf (n : ℕ) (h : shiftOf n n ≠ 0) : 2 ^ 52 * 2 ^ shiftOf n n ≤ n :=
  (Nat.le_div_iff_mul_le (by positivity)).mp ((shiftOf_spec n n le_rfl).2 h)

/-- The magnitude rounded down is not above the magnitude rounded to
nearest. -/
lemma floor_le_roundedUnits (n : ℕ) :
    n / 2 ^ shiftOf n n * 2 ^ shiftOf n n ≤ roundedUnits n := by
  unfold roundedUnits
  split_ifs
  · exact Nat.mul_le_mul_right _ (Nat.le_succ _)
  · exact le_rfl

/-- A representable magnitude is rounded to itself. -/
lemma roundedUnits_of_representable (n : ℕ) (h : representable n = true) :
    roundedUnits n = n := by
  have hmod : n % 2 ^ shiftOf n n = 0 := by simpa [representable] using h
  have hpos : 0 < 2 ^ shiftOf n n := by positivity
  unfold roundedUnits
  rw [hmod]
  have hne : ¬ (2 ^ shiftOf n n < 2 * 0 ∨ (2 * 0 = 2 ^ shiftOf n n
      ∧ n / 2 ^ shiftOf n n % 2 = 1)) := by
    rintro (h1 | ⟨h2, _⟩) <;> omega
  rw [if_neg hne]
  exact Nat.div_mul_cancel (Nat.dvd_of_mod_eq_zero hmod)

/-- Rounding is monotone against doubles: a representable magnitude that is
not above an exact magnitude is not above the rounded one. -/
lemma le_roundedUnits (m n : ℕ) (hm : representable m = true) (hmn : m ≤ n) :
    m ≤ roundedUnits n := by
  refine le_trans ?_ (floor_le_roundedUnits n)
  have hmod : m % 2 ^ shiftOf m m = 0 := by simpa [representable] using hm
  have hm_eq : m / 2 ^ shiftOf m m * 2 ^ shiftOf m m = m :=
    Nat.div_mul_cancel (Nat.dvd_of_mod_eq_zero hmod)
  rcases lt_trichotomy (shiftOf m m) (shiftOf n n) with hlt | heq | hgt
  · have hn0 : shiftOf n n ≠ 0 := by omega
    have h1 : 2 ^ 52 * 2 ^ shiftOf n n ≤ n / 2 ^ shiftOf n n * 2 ^ shiftOf n n :=
      Nat.mul_le_mul_right _ ((shiftOf_spec n n le_rfl).2 hn0)
    have h2 : m < 2 ^ 53 * 2 ^ shiftOf m m := lt_of_shiftOf m
    have h3 : 2 ^ 53 * 2 ^ shiftOf m m ≤ 2 ^ 52 * 2 ^ shiftOf n n := by
      have : 2 ^ (shiftOf m m + 1) ≤ 2 ^ shiftOf n n :=
        Nat.pow_le_pow_right (by norm_num) hlt
      calc 2 ^ 53 * 2 ^ shiftOf m m = 2 ^ 52 * 2 ^ (shiftOf m m + 1) := by ring
        _ ≤ 2 ^ 52 * 2 ^ shiftOf n n := Nat.mul_le_mul_left _ this
    omega
  · rw [← heq]
    calc m = m / 2 ^ shiftOf m m * 2 ^ shiftOf m m := hm_eq.symm
      _ ≤ n / 2 ^ shiftOf m m * 2 ^ shiftOf m m :=
        Nat.mul_le_mul_right _ (Nat.div_le_div_right hmn)
  · exfalso
    have hm0 : shiftOf m m ≠ 0 := by omega
    have h1 : 2 ^ 52 * 2 ^ shiftOf m m ≤ m := le_of_shiftOf m hm0
    have h2 : n < 2 ^ 53 * 2 ^ shiftOf n n := lt_of_shiftOf n
    have h3 : 2 ^ 53 * 2 ^ shiftOf n n ≤ 2 ^ 52 * 2 ^ shiftOf m m := by
      have : 2 ^ (shiftOf n n + 1) ≤ 2 ^ shiftOf m m :=
        Nat.pow_le_pow_right (by norm_num) hgt
      calc 2 ^ 53 * 2 ^ shiftOf n n = 2 ^ 52 * 2 ^ (shiftOf n n + 1) := by ring
        _ ≤ 2 ^ 52 * 2 ^ shiftOf m m := Nat.mul_le_mul_left _ this
    omega

end Double

/-! Comparison and arithmetic of doubles. -/

namespace Double

@[simp] lemma signed_false (n : ℕ) : signed false n = (n : ℤ) := rfl

@[simp] lemma signed_true (n : ℕ) : signed true n = -(n : ℤ) := rfl

@[simp] lemma ofInt_zero : ofInt 0 = finite false 0 := rfl

/-- The sign flipped is the number negated. -/
lemma signed_not (s : Bool) (n : ℕ) : signed (!s) n = -signed s n := by
  cases s <;> simp

/-- The sign and magnitude of an integer give it back. -/
lemma signed_natAbs (z : ℤ) : signed (decide (z < 0)) z.natAbs = z := by
  by_cases h : z < 0
  · simp only [h, decide_True, signed_true]; omega
  · simp only [h, decide_False, signed_false]; omega

/-- When x <= y holds, y < x does not. -/
lemma lt_eq_false_of_le (x y : Double) (h : le x y = true) : lt y x = false := by
  cases x <;> cases y <;> simp_all [le, lt]
  next a b => cases a <;> cases b <;> simp_all

/-- A double that is not NaN and not below zero is at least zero. -/
lemma le_zero_of_not_lt (x : Double) (hnan : x.isNaN = false)
    (h : lt x (ofInt 0) = false) : le (ofInt 0) x = true := by
  cases x <;> simp_all [le, lt, isNaN]

/-- A rounded magnitude with the positive sign is at least zero. -/
lemma le_zero_roundMag (n : ℕ) : le (ofInt 0) (roundMag false n) = true := by
  unfold roundMag
  split_ifs <;> simp [le]

/-- A rounded magnitude is never NaN. -/
lemma isNaN_roundMag (s : Bool) (n : ℕ) : (roundMag s n).isNaN = false := by
  unfold roundMag
  split_ifs <;> rfl

/-- A finite double is at least zero when its signed number of units is. -/
lemma le_zero_finite (s : Bool) (n : ℕ) :
    le (ofInt 0) (finite s n) = true ↔ 0 ≤ signed s n := by
  simp [le]

/-- The sum of two finite doubles, from their exact sum. -/
lemma add_finite (s1 s2 : Bool) (n1 n2 : ℕ) :
    add (finite s1 n1) (finite s2 n2)
      = if signed s1 n1 + signed s2 n2 = 0 then finite (s1 && s2) 0
        else roundMag (decide (signed s1 n1 + signed s2 n2 < 0))
          (signed s1 n1 + signed s2 n2).natAbs := rfl

/-- The sum of two finite doubles whose exact sum is at least zero is at least
zero. -/
lemma le_zero_add_finite (s1 s2 : Bool) (n1 n2 : ℕ)
    (h : 0 ≤ signed s1 n1 + signed s2 n2) :
    le (ofInt 0) (add (finite s1 n1) (finite s2 n2)) = true := by
  rw [add_finite]
  split_ifs with hz
  · simp [le]
    cases s1 <;> cases s2 <;> simp
  · have hneg : ¬ signed s1 n1 + signed s2 n2 < 0 := not_lt.mpr h
    simp only [hneg, decide_False]
    exact le_zero_roundMag _

/-- The sum of two doubles that are at least zero is at least zero. -/
lemma le_zero_add (x y : Double) (hx : le (ofInt 0) x = true)
    (hy : le (ofInt 0) y = true) : le (ofInt 0) (add x y) = true := by
  cases x with
  | nan => simp [le] at hx
  | inf a =>
    cases y with
    | nan => simp [le] at hy
    | inf b => simp_all [le, add]
    | finite s n => simp_all [le, add]
  | finite s1 n1 =>
    cases y with
    | nan => simp [le] at hy
    | inf b => simp_all [le, add]
    | finite s2 n2 =>
      rw [le_zero_finite] at hx hy
      exact le_zero_add_finite s1 s2 n1 n2 (add_nonneg hx hy)

/-- When y > x does not hold and x - y is not NaN, x - y is at least zero. -/
lemma le_zero_sub (x y : Double) (h : gt y x = false)
    (hnan : (sub x y).isNaN = false) : le (ofInt 0) (sub x y) = true := by
  cases x with
  | nan => simp [sub, add, isNaN] at hnan
  | inf a =>
    cases y with
    | nan => simp [sub, add, neg, isNaN] at hnan
    | inf b => cases a <;> cases b <;> simp_all [le, sub, add, neg, gt, lt, isNaN]
    | finite s n => simp_all [le, sub, add, neg, gt, lt]
  | finite s1 n1 =>
    cases y with
    | nan => simp [sub, add, neg, isNaN] at hnan
    | inf b => simp_all [le, sub, add, neg, gt, lt]
    | finite s2 n2 =>
      have hle : signed s2 n2 ≤ signed s1 n1 := by simpa [gt, lt] using h
      have : 0 ≤ signed s1 n1 + signed (!s2) n2 := by rw [signed_not]; omega
      exact le_zero_add_finite s1 (!s2) n1 n2 this

/-- Subtracting a finite double from a double that is not NaN does not give
NaN. -/
lemma isNaN_sub_finite (x y : Double) (hx : x.isNaN = false) (hy : y.isFinite = true) :
    (sub x y).isNaN = false := by
  cases y with
  | nan => simp [isFinite] at hy
  | inf b => simp [isFinite] at hy
  | finite s2 n2 =>
    cases x with
    | nan => simp [isNaN] at hx
    | inf a => rfl
    | finite s1 n1 =>
      show (add (finite s1 n1) (finite (!s2) n2)).isNaN = false
      rw [add_finite]
      split_ifs
      · rfl
      · exact isNaN_roundMag _ _

/-- The number a negated double stands for. -/
lemma value_neg (x : Double) : (neg x).value = -x.value := by
  cases x with
  | nan => simp [neg, value]
  | inf a => simp [neg, value]
  | finite s n => simp [neg, value, signed_not, neg_div]

/-- A sum computed without rounding stands for the exact sum. -/
lemma value_add_of_exact (x y : Double) (h : exactAdd x y = true) :
    (add x y).value = x.value + y.value ∧ (add x y).isFinite = true := by
  cases x with
  | nan => simp [exactAdd] at h
  | inf a => simp [exactAdd] at h
  | finite s1 n1 =>
    cases y with
    | nan => simp [exactAdd] at h
    | inf b => simp [exactAdd] at h
    | finite s2 n2 =>
      simp only [exactAdd, Bool.and_eq_true, decide_eq_true_eq] at h
      rw [add_finite]
      split_ifs with hz
      · refine ⟨?_, rfl⟩
        have hq : (signed s1 n1 : ℚ) + (signed s2 n2 : ℚ) = 0 := by exact_mod_cast hz
        have h0 : signed (s1 && s2) 0 = 0 := by cases s1 <;> cases s2 <;> rfl
        simp only [value, h0, Int.cast_zero, zero_div]
        rw [← add_div, hq, zero_div]
      · have hr : roundMag (decide (signed s1 n1 + signed s2 n2 < 0))
            (signed s1 n1 + signed s2 n2).natAbs
            = finite (decide (signed s1 n1 + signed s2 n2 < 0))
              (signed s1 n1 + signed s2 n2).natAbs := by
          unfold roundMag
          rw [roundedUnits_of_representable _ h.1, if_neg (not_le.mpr h.2)]
        rw [hr]
        refine ⟨?_, rfl⟩
        simp only [value, signed_natAbs]
        push_cast
        ring

/-- A difference computed without rounding stands for the exact
difference. -/
lemma value_sub_of_exact (x y : Double) (h : exactSub x y = true) :
    (sub x y).value = x.value - y.value ∧ (sub x y).isFinite = true := by
  have := value_add_of_exact x (neg y) h
  rw [value_neg] at this
  exact ⟨by rw [sub, this.1]; ring, this.2⟩

/-- The sum of two finite doubles that is computed without rounding. -/
lemma add_finite_of_exact (s1 s2 : Bool) (n1 n2 : ℕ)
    (h : exactAdd (finite s1 n1) (finite s2 n2) = true) :
    add (finite s1 n1) (finite s2 n2)
      = if signed s1 n1 + signed s2 n2 = 0 then finite (s1 && s2) 0
        else finite (decide (signed s1 n1 + signed s2 n2 < 0))
          (signed s1 n1 + signed s2 n2).natAbs := by
  simp only [exactAdd, Bool.and_eq_true, decide_eq_true_eq] at h
  rw [add_finite]
  split_ifs with hz
  · rfl
  · unfold roundMag
    rw [roundedUnits_of_representable _ h.1, if_neg (not_le.mpr h.2)]

/-- Taking a negative amount away from a balance that is a double and at
least zero gives at least that balance. -/
lemma le_sub_of_neg (b a : Double) (hd : b.isDouble = true)
    (hb : le (ofInt 0) b = true) (ha : lt a (ofInt 0) = true) :
    le b (sub b a) = true := by
  cases b with
  | nan => simp [le] at hb
  | inf sb =>
    cases a with
    | nan => simp [lt] at ha
    | inf sa => simp_all [le, lt, sub, neg, add]
    | finite sa na => simp_all [le, lt, sub, neg, add]
  | finite sb nb =>
    cases a with
    | nan => simp [lt] at ha
    | inf sa => simp_all [le, lt, sub, neg, add]
    | finite sa na =>
      have hb0 : 0 ≤ signed sb nb := (le_zero_finite sb nb).mp hb
      have ha0 : signed sa na < 0 := by simpa [lt] using ha
      have hrep : representable nb = true := by
        simp only [isDouble, Bool.and_eq_true] at hd
        exact hd.1
      show le (finite sb nb) (add (finite sb nb) (finite (!sa) na)) = true
      rw [add_finite, signed_not]
      have hz : ¬ signed sb nb + -signed sa na = 0 := by omega
      have hneg : ¬ signed sb nb + -signed sa na < 0 := by omega
      rw [if_neg hz]
      simp only [hneg, decide_False]
      unfold roundMag
      split_ifs
      · simp [le]
      · have hle : nb ≤ (signed sb nb + -signed sa na).natAbs := by
          cases sb <;> simp at hb0 ⊢ <;> omega
        have hr := le_roundedUnits nb _ hrep hle
        have hs : signed sb nb ≤ (nb : ℤ) := by cases sb <;> simp
        simp only [le, signed_false, decide_eq_true_eq]
        omega

/-- Taking a negative amount away from a balance that is at least zero gives
strictly more when the difference is computed without rounding. -/
lemma lt_sub_of_neg_exact (b a : Double) (hb : le (ofInt 0) b = true)
    (ha : lt a (ofInt 0) = true) (hex : exactSub b a = true) :
    lt b (sub b a) = true := by
  cases b with
  | nan => simp [le] at hb
  | inf sb => simp [exactSub, exactAdd] at hex
  | finite sb nb =>
    cases a with
    | nan => simp [lt] at ha
    | inf sa => simp [exactSub, neg, exactAdd] at hex
    | finite sa na =>
      have hb0 : 0 ≤ signed sb nb := (le_zero_finite sb nb).mp hb
      have ha0 : signed sa na < 0 := by simpa [lt] using ha
      show lt (finite sb nb) (add (finite sb nb) (finite (!sa) na)) = true
      rw [add_finite_of_exact _ _ _ _ hex, signed_not]
      have hz : ¬ signed sb nb + -signed sa na = 0 := by omega
      rw [if_neg hz]
      simp only [lt, signed_natAbs, decide_eq_true_eq]
      omega

/-- A magnitude rounded to nearest is representable. -/
lemma representable_roundedUnits (n : ℕ) : representable (roundedUnits n) = true := by
  have hq := (shiftOf_spec n n le_rfl).1
  have hq2 := (shiftOf_spec n n le_rfl).2
  have key : ∀ q1 : ℕ, q1 ≤ 2 ^ 53 → representable (q1 * 2 ^ shiftOf n n) = true := by
    intro q1 hq1
    simp only [representable, decide_eq_true_eq]
    apply Nat.mod_eq_zero_of_dvd
    set m := q1 * 2 ^ shiftOf n n with hm
    set j := shiftOf m m with hj
    set sh := shiftOf n n with hsh
    rcases Nat.lt_or_ge sh j with hlt | hge
    · have hj0 : j ≠ 0 := by omega
      have h1 : 2 ^ 52 * 2 ^ j ≤ m := le_of_shiftOf m hj0
      have h2 : m ≤ 2 ^ 53 * 2 ^ sh := Nat.mul_le_mul_right _ hq1
      have h3 : 2 ^ (sh + 1) ≤ 2 ^ j := Nat.pow_le_pow_right (by norm_num) hlt
      have h4 : 2 ^ 52 * 2 ^ (sh + 1) = 2 ^ 53 * 2 ^ sh := by ring
      have h5 : 2 ^ 52 * 2 ^ (sh + 1) ≤ 2 ^ 52 * 2 ^ j := Nat.mul_le_mul_left _ h3
      have hm53 : m = 2 ^ 53 * 2 ^ sh := by omega
      have hjeq : j = sh + 1 := by
        by_contra hne
        have hlt2 : sh + 2 ≤ j := by omega
        have h6 : 2 ^ (sh + 2) ≤ 2 ^ j := Nat.pow_le_pow_right (by norm_num) hlt2
        have h7 : 2 ^ 52 * 2 ^ (sh + 2) = 2 * (2 ^ 53 * 2 ^ sh) := by ring
        have h8 : 2 ^ 52 * 2 ^ (sh + 2) ≤ 2 ^ 52 * 2 ^ j := Nat.mul_le_mul_left _ h6
        have h9 : 0 < 2 ^ 53 * 2 ^ sh := by positivity
        omega
      rw [hm53, hjeq]
      exact ⟨2 ^ 52, by ring⟩
    · exact Dvd.dvd.mul_left (Nat.pow_dvd_pow 2 hge) q1
  unfold roundedUnits
  split_ifs
  · exact key _ (by omega)
  · exact key _ (by omega)

/-- Rounding gives a double. -/
lemma isDouble_roundMag (s : Bool) (n : ℕ) : (roundMag s n).isDouble = true := by
  unfold roundMag
  split_ifs with h
  · rfl
  · simp only [isDouble, Bool.and_eq_true, decide_eq_true_eq]
    exact ⟨representable_roundedUnits n, not_le.mp h⟩

/-- Both zeros are doubles. -/
lemma isDouble_zero (s : Bool) : (finite s 0).isDouble = true := by
  simp [isDouble, representable, shiftOf]

/-- The sum of two values of the type is a double. -/
lemma isDouble_add (x y : Double) : (add x y).isDouble = true := by
  cases x with
  | nan => cases y <;> rfl
  | inf a =>
    cases y with
    | nan => rfl
    | inf b => simp only [add]; split_ifs <;> rfl
    | finite s n => rfl
  | finite s1 n1 =>
    cases y with
    | nan => rfl
    | inf b => rfl
    | finite s2 n2 =>
      rw [add_finite]
      split_ifs
      · exact isDouble_zero _
      · exact isDouble_roundMag _ _

/-- The difference of two values of the type is a double. -/
lemma isDouble_sub (x y : Double) : (sub x y).isDouble = true := isDouble_add _ _

/-- An integer converted to double is a double. -/
lemma isDouble_ofInt (z : ℤ) : (ofInt z).isDouble = true := by
  unfold ofInt
  split_ifs
  · exact isDouble_zero _
  · exact isDouble_roundMag _ _

/-- The number a finite double with a whole number of 2^1074 units stands
for. -/
lemma value_finite_mul (s : Bool) (k : ℕ) :
    (finite s (k * 2 ^ 1074)).value = (signed s k : ℚ) := by
  have h2 : (2 : ℚ) ^ 1074 ≠ 0 := by positivity
  cases s
  · simp only [value, signed_false, Nat.cast_mul, Nat.cast_pow, Nat.cast_ofNat,
      Int.cast_mul, Int.cast_pow, Int.cast_ofNat, Int.cast_natCast]
    rw [mul_div_assoc, div_self h2, mul_one]
  · simp only [value, signed_true, Nat.cast_mul, Nat.cast_pow, Nat.cast_ofNat,
      Int.cast_neg, Int.cast_mul, Int.cast_pow, Int.cast_ofNat, Int.cast_natCast]
    rw [neg_div, mul_div_assoc, div_self h2, mul_one]

end Double

/-! Theorems. -/

/-- C1: after closeAccount, whatever the account was (any balance, open or
already closed) and whatever the amounts (negative or above the balance
included), a deposit and a withdraw each throw
InvalidAccountOperationException, also one after the other, and the balance is
the one the account had immediately before closeAccount. -/
theorem closed_account_rejects_transactions (s : BankAccount) (a b : Double) :
    (deposit (closeAccount s).2 a).1 = .threw .InvalidAccountOperationException
    ∧ (withdraw (closeAccount s).2 a).1 = .threw .InvalidAccountOperationException
    ∧ (withdraw (deposit (closeAccount s).2 a).2 b).1
        = .threw .InvalidAccountOperationException
    ∧ (deposit (withdraw (closeAccount s).2 a).2 b).1
        = .threw .InvalidAccountOperationException
    ∧ (getBalance (deposit (closeAccount s).2 a).2).1 = .returned s.balance
    ∧ (getBalance (withdraw (closeAccount s).2 a).2).1 = .returned s.balance
    ∧ (getBalance (withdraw (deposit (closeAccount s).2 a).2 b).2).1
        = .returned s.balance := by
  simp [deposit, withdraw, closeAccount, getBalance]

/-- C2, as stated, fails: on an active account with balance 2^53 the deposit of
1 returns normally and the balance afterwards is 2^53, which is not the balance
before plus 1. -/
theorem deposit_rounds_the_sum :
    (BankAccount.new "123456" (Double.ofInt (2 ^ 53))).isActive = true
    ∧ Double.ge (Double.ofInt 1) (Double.ofInt 0) = true
    ∧ (Double.ofInt (2 ^ 53)).isDouble = true ∧ (Double.ofInt 1).isDouble = true
    ∧ (deposit (BankAccount.new "123456" (Double.ofInt (2 ^ 53))) (Double.ofInt 1)).1
        = .returned ()
    ∧ (getBalance (deposit (BankAccount.new "123456" (Double.ofInt (2 ^ 53)))
          (Double.ofInt 1)).2).1 = .returned (Double.ofInt (2 ^ 53))
    ∧ (deposit (BankAccount.new "123456" (Double.ofInt (2 ^ 53)))
          (Double.ofInt 1)).2.balance.value
        ≠ (BankAccount.new "123456" (Double.ofInt (2 ^ 53))).balance.value
          + (Double.ofInt 1).value := by
  have h1 : (deposit (BankAccount.new "123456" (Double.ofInt (2 ^ 53)))
      (Double.ofInt 1)).2.balance = .finite false (2 ^ 53 * 2 ^ 1074) := by decide
  have h2 : (BankAccount.new "123456" (Double.ofInt (2 ^ 53))).balance
      = .finite false (2 ^ 53 * 2 ^ 1074) := by decide
  have h3 : Double.ofInt 1 = .finite false (1 * 2 ^ 1074) := by decide
  refine ⟨rfl, by decide, by decide, by decide, by decide, by decide, ?_⟩
  rw [h1, h2, h3]
  simp only [Double.value_finite_mul]
  norm_num

/-- C2, amended: on an active account a deposit of an amount a with a ≥ 0
returns normally, and getBalance afterwards returns the double sum of the
balance before and a, that is their exact sum rounded to nearest, ties to
even; the account number and the active flag are as before.  Whenever that sum
is computed without rounding, the balance afterwards is exactly the balance
before plus a. -/
theorem deposit_nonneg_succeeds (s : BankAccount) (a : Double)
    (hactive : s.isActive = true) (ha : Double.ge a (Double.ofInt 0) = true) :
    (deposit s a).1 = .returned ()
    ∧ (getBalance (deposit s a).2).1 = .returned (Double.add s.balance a)
    ∧ (deposit s a).2 = { s with balance := Double.add s.balance a }
    ∧ (Double.exactAdd s.balance a = true →
        (deposit s a).2.balance.value = s.balance.value + a.value) := by
  have hlt : Double.lt a (Double.finite false 0) = false :=
    Double.lt_eq_false_of_le _ _ ha
  have hd : deposit s a = (.returned (), { s with balance := Double.add s.balance a }) := by
    simp [deposit, hactive, hlt]
  rw [hd]
  exact ⟨rfl, rfl, rfl, fun hex => (Double.value_add_of_exact _ _ hex).1⟩

/-- The first deposit of the driver: 1000 onto a fresh account with balance 0;
the sum needs no rounding. -/
theorem deposit_nonneg_succeeds_witness :
    (BankAccount.new "123456" (Double.ofInt 0)).isActive = true
    ∧ Double.ge (Double.ofInt 1000) (Double.ofInt 0) = true
    ∧ Double.exactAdd (BankAccount.new "123456" (Double.ofInt 0)).balance
        (Double.ofInt 1000) = true
    ∧ (deposit (BankAccount.new "123456" (Double.ofInt 0)) (Double.ofInt 1000)).1
        = .returned ()
    ∧ (deposit (BankAccount.new "123456" (Double.ofInt 0))
          (Double.ofInt 1000)).2.balance.value
        = (BankAccount.new "123456" (Double.ofInt 0)).balance.value
          + (Double.ofInt 1000).value :=
  have h := deposit_nonneg_succeeds (BankAccount.new "123456" (Double.ofInt 0))
    (Double.ofInt 1000) rfl (by decide)
  ⟨rfl, by decide, by decide, h.1, h.2.2.2 (by decide)⟩

/-- C3, as stated, fails: on an active account with balance 2^53 + 2 the
withdrawal of 1 returns normally and leaves 2^53, which is not the balance
before minus 1; and on an active account whose balance is infinite the
withdrawal of the whole balance returns normally and leaves NaN, not 0. -/
theorem withdraw_rounds_the_difference :
    (BankAccount.new "123456" (Double.ofInt (2 ^ 53 + 2))).isActive = true
    ∧ Double.ge (Double.ofInt 1) (Double.ofInt 0) = true
    ∧ Double.le (Double.ofInt 1) (Double.ofInt (2 ^ 53 + 2)) = true
    ∧ (Double.ofInt (2 ^ 53 + 2)).isDouble = true ∧ (Double.ofInt 1).isDouble = true
    ∧ (withdraw (BankAccount.new "123456" (Double.ofInt (2 ^ 53 + 2))) (Double.ofInt 1)).1
        = .returned ()
    ∧ (getBalance (withdraw (BankAccount.new "123456" (Double.ofInt (2 ^ 53 + 2)))
          (Double.ofInt 1)).2).1 = .returned (Double.ofInt (2 ^ 53))
    ∧ (withdraw (BankAccount.new "123456" (Double.ofInt (2 ^ 53 + 2)))
          (Double.ofInt 1)).2.balance.value
        ≠ (BankAccount.new "123456" (Double.ofInt (2 ^ 53 + 2))).balance.value
          - (Double.ofInt 1).value
    ∧ Double.ge (Double.inf false) (Double.ofInt 0) = true
    ∧ Double.le (Double.inf false) (Double.inf false) = true
    ∧ (withdraw (BankAccount.new "123456" (Double.inf false)) (Double.inf false)).1
        = .returned ()
    ∧ (getBalance (withdraw (BankAccount.new "123456" (Double.inf false))
          (Double.inf false)).2).1 = .returned Double.nan := by
  have h1 : (withdraw (BankAccount.new "123456" (Double.ofInt (2 ^ 53 + 2)))
      (Double.ofInt 1)).2.balance = .finite false (2 ^ 53 * 2 ^ 1074) := by decide
  have h2 : (BankAccount.new "123456" (Double.ofInt (2 ^ 53 + 2))).balance
      = .finite false ((2 ^ 53 + 2) * 2 ^ 1074) := by decide
  have h3 : Double.ofInt 1 = .finite false (1 * 2 ^ 1074) := by decide
  refine ⟨rfl, by decide, by decide, by decide, by decide, by decide, by decide, ?_,
    by decide, by decide, by decide, by decide⟩
  rw [h1, h2, h3]
  simp only [Double.value_finite_mul]
  norm_num

/-- C3, amended: on an active account a withdrawal of an amount a with
0 ≤ a ≤ balance returns normally and the balance afterwards is the double
difference of the balance before and a, that is their exact difference rounded
to nearest, ties to even.  Whenever that difference is computed without
rounding, the balance afterwards is exactly the balance before minus a; and
withdrawing the whole of a finite balance returns normally and leaves 0. -/
theorem withdraw_within_balance_succeeds (s : BankAccount) (a : Double)
    (hactive : s.isActive = true) (ha : Double.ge a (Double.ofInt 0) = true)
    (hle : Double.le a s.balance = true) :
    (withdraw s a).1 = .returned ()
    ∧ (getBalance (withdraw s a).2).1 = .returned (Double.sub s.balance a)
    ∧ (withdraw s a).2 = { s with balance := Double.sub s.balance a }
    ∧ (Double.exactSub s.balance a = true →
        (withdraw s a).2.balance.value = s.balance.value - a.value)
    ∧ (s.balance.isFinite = true →
        (withdraw s s.balance).1 = .returned ()
        ∧ (withdraw s s.balance).2.balance = Double.ofInt 0) := by
  have _ := ha
  have hgt : Double.gt a s.balance = false := Double.lt_eq_false_of_le _ _ hle
  have hw : withdraw s a = (.returned (), { s with balance := Double.sub s.balance a }) := by
    simp [withdraw, hactive, hgt]
  rw [hw]
  refine ⟨rfl, rfl, rfl, fun hex => (Double.value_sub_of_exact _ _ hex).1, fun hfin => ?_⟩
  cases s with
  | mk accNum bal act =>
    cases bal with
    | nan => simp [Double.isFinite] at hfin
    | inf b => simp [Double.isFinite] at hfin
    | finite sb nb =>
      simp only at hactive
      subst hactive
      have hself : Double.gt (Double.finite sb nb) (Double.finite sb nb) = false := by
        simp [Double.gt, Double.lt]
      have hsub : Double.sub (Double.finite sb nb) (Double.finite sb nb)
          = Double.finite false 0 := by
        simp [Double.sub, Double.neg, Double.add_finite, Double.signed_not]
      simp [withdraw, hself, hsub]

/-- The withdrawal of the driver: 500 from an active account with balance
1000; the difference needs no rounding. -/
theorem withdraw_within_balance_succeeds_witness :
    (BankAccount.new "123456" (Double.ofInt 1000)).isActive = true
    ∧ Double.ge (Double.ofInt 500) (Double.ofInt 0) = true
    ∧ Double.le (Double.ofInt 500) (BankAccount.new "123456" (Double.ofInt 1000)).balance
        = true
    ∧ (withdraw (BankAccount.new "123456" (Double.ofInt 1000)) (Double.ofInt 500)).1
        = .returned ()
    ∧ (withdraw (BankAccount.new "123456" (Double.ofInt 1000))
          (Double.ofInt 500)).2.balance.value
        = (BankAccount.new "123456" (Double.ofInt 1000)).balance.value
          - (Double.ofInt 500).value
    ∧ (withdraw (BankAccount.new "123456" (Double.ofInt 1000))
          (BankAccount.new "123456" (Double.ofInt 1000)).balance).2.balance
        = Double.ofInt 0 :=
  have h := withdraw_within_balance_succeeds (BankAccount.new "123456" (Double.ofInt 1000))
    (Double.ofInt 500) rfl (by decide) (by decide)
  ⟨rfl, by decide, by decide, h.1, h.2.2.2.1 (by decide), (h.2.2.2.2 (by decide)).2⟩

/-- C4: on an active account a deposit of an amount a < 0 throws
NegativeDepositException and leaves the object, its balance included, as it
was. -/
theorem deposit_negative_fails (s : BankAccount) (a : Double)
    (hactive : s.isActive = true) (ha : Double.lt a (Double.ofInt 0) = true) :
    (deposit s a).1 = .threw .NegativeDepositException
    ∧ (deposit s a).2 = s
    ∧ (getBalance (deposit s a).2).1 = .returned s.balance := by
  have ha0 : Double.lt a (Double.finite false 0) = true := ha
  simp [deposit, getBalance, hactive, ha0]

/-- The negative deposit of the driver: -100 onto an active account with
balance 500. -/
theorem deposit_negative_fails_witness :
    (BankAccount.new "123456" (Double.ofInt 500)).isActive = true
    ∧ Double.lt (Double.ofInt (-100)) (Double.ofInt 0) = true
    ∧ (deposit (BankAccount.new "123456" (Double.ofInt 500)) (Double.ofInt (-100))).1
        = .threw .NegativeDepositException
    ∧ (deposit (BankAccount.new "123456" (Double.ofInt 500)) (Double.ofInt (-100))).2
        = BankAccount.new "123456" (Double.ofInt 500) :=
  ⟨rfl, by decide,
    (deposit_negative_fails (BankAccount.new "123456" (Double.ofInt 500))
      (Double.ofInt (-100)) rfl (by decide)).1,
    (deposit_negative_fails (BankAccount.new "123456" (Double.ofInt 500))
      (Double.ofInt (-100)) rfl (by decide)).2.1⟩

/-- C5: on an active account, whatever the sign of its balance, a withdrawal
of an amount a > balance throws OverdrawException and leaves the object, its
balance included, as it was; an account created with balance 100 rejects
withdraw(150) and still has balance 100. -/
theorem withdraw_above_balance_fails (s : BankAccount) (a : Double)
    (hactive : s.isActive = true) (ha : Double.gt a s.balance = true) :
    ((withdraw s a).1 = .threw .OverdrawException
      ∧ (withdraw s a).2 = s
      ∧ (getBalance (withdraw s a).2).1 = .returned s.balance)
    ∧ (withdraw (BankAccount.new "123456" (Double.ofInt 100)) (Double.ofInt 150)).1
        = .threw .OverdrawException
    ∧ (getBalance (withdraw (BankAccount.new "123456" (Double.ofInt 100))
          (Double.ofInt 150)).2).1 = .returned (Double.ofInt 100) := by
  refine ⟨?_, by decide, by decide⟩
  simp [withdraw, getBalance, hactive, ha]

/-- An account with the negative balance -5 rejects the withdrawal of -2. -/
theorem withdraw_above_balance_fails_witness :
    (BankAccount.new "123456" (Double.ofInt (-5))).isActive = true
    ∧ Double.gt (Double.ofInt (-2)) (BankAccount.new "123456" (Double.ofInt (-5))).balance
        = true
    ∧ (withdraw (BankAccount.new "123456" (Double.ofInt (-5))) (Double.ofInt (-2))).1
        = .threw .OverdrawException
    ∧ (withdraw (BankAccount.new "123456" (Double.ofInt (-5))) (Double.ofInt (-2))).2
        = BankAccount.new "123456" (Double.ofInt (-5)) :=
  ⟨rfl, by decide,
    (withdraw_above_balance_fails (BankAccount.new "123456" (Double.ofInt (-5)))
      (Double.ofInt (-2)) rfl (by decide)).1.1,
    (withdraw_above_balance_fails (BankAccount.new "123456" (Double.ofInt (-5)))
      (Double.ofInt (-2)) rfl (by decide)).1.2.1⟩

/-- C6, as stated, fails: constructing an account with initial balance -5
succeeds and its balance is not ≥ 0; on that account deposit(1) returns
normally and closeAccount returns normally, and the balance is still not ≥ 0
after either.  On an account with balance 0, deposit(NaN) returns normally,
and so does withdraw(NaN), and the balance after either is NaN, which is not
≥ 0. -/
theorem negative_balance_after_successful_operations :
    Double.ge (BankAccount.new "123456" (Double.ofInt (-5))).balance (Double.ofInt 0) = false
    ∧ (deposit (BankAccount.new "123456" (Double.ofInt (-5))) (Double.ofInt 1)).1
        = .returned ()
    ∧ Double.ge (deposit (BankAccount.new "123456" (Double.ofInt (-5)))
          (Double.ofInt 1)).2.balance (Double.ofInt 0) = false
    ∧ (closeAccount (BankAccount.new "123456" (Double.ofInt (-5)))).1 = .returned ()
    ∧ Double.ge (closeAccount (BankAccount.new "123456" (Double.ofInt (-5)))).2.balance
          (Double.ofInt 0) = false
    ∧ Double.ge (BankAccount.new "123456" (Double.ofInt 0)).balance (Double.ofInt 0) = true
    ∧ (deposit (BankAccount.new "123456" (Double.ofInt 0)) Double.nan).1 = .returned ()
    ∧ Double.ge (deposit (BankAccount.new "123456" (Double.ofInt 0)) Double.nan).2.balance
          (Double.ofInt 0) = false
    ∧ (withdraw (BankAccount.new "123456" (Double.ofInt 0)) Double.nan).1 = .returned ()
    ∧ Double.ge (withdraw (BankAccount.new "123456" (Double.ofInt 0)) Double.nan).2.balance
          (Double.ofInt 0) = false := by
  decide

/-- C6, amended: the balance is ≥ 0 after construction when the initial
balance is ≥ 0; after a deposit that returns normally when the balance was ≥ 0
before the call and the amount is not NaN; after a withdrawal that returns
normally when the new balance is not NaN, whatever the balance was before;
after closeAccount when the balance was ≥ 0 before the call. -/
theorem balance_nonneg_preserved (s : BankAccount) (a : Double) (accNum : String)
    (b : Double) :
    (Double.ge b (Double.ofInt 0) = true →
        Double.ge (BankAccount.new accNum b).balance (Double.ofInt 0) = true)
    ∧ (Double.ge s.balance (Double.ofInt 0) = true → a.isNaN = false →
        (deposit s a).1 = .returned () →
        Double.ge (deposit s a).2.balance (Double.ofInt 0) = true)
    ∧ ((withdraw s a).1 = .returned () → (withdraw s a).2.balance.isNaN = false →
        Double.ge (withdraw s a).2.balance (Double.ofInt 0) = true)
    ∧ (Double.ge s.balance (Double.ofInt 0) = true → (closeAccount s).1 = .returned () →
        Double.ge (closeAccount s).2.balance (Double.ofInt 0) = true) := by
  refine ⟨fun hb => hb, ?_, ?_, fun hs _ => hs⟩
  · intro hs hnan
    unfold deposit
    split_ifs with h1 h2
    · simp
    · simp
    · intro _
      have h2f : Double.lt a (Double.ofInt 0) = false := by simpa using h2
      exact Double.le_zero_add _ _ hs (Double.le_zero_of_not_lt a hnan h2f)
  · unfold withdraw
    split_ifs with h1 h2
    · simp
    · simp
    · intro _ hnan
      have h2f : Double.gt a s.balance = false := by simpa using h2
      exact Double.le_zero_sub _ _ h2f hnan

/-- An active account with balance 1000: a deposit of 500, a withdrawal of 500
and closeAccount all return and leave a balance that is ≥ 0. -/
theorem balance_nonneg_preserved_witness :
    Double.ge (Double.ofInt 1000) (Double.ofInt 0) = true
    ∧ (Double.ofInt 500).isNaN = false
    ∧ (deposit (BankAccount.new "123456" (Double.ofInt 1000)) (Double.ofInt 500)).1
        = .returned ()
    ∧ (withdraw (BankAccount.new "123456" (Double.ofInt 1000)) (Double.ofInt 500)).1
        = .returned ()
    ∧ (withdraw (BankAccount.new "123456" (Double.ofInt 1000))
        (Double.ofInt 500)).2.balance.isNaN = false
    ∧ (closeAccount (BankAccount.new "123456" (Double.ofInt 1000))).1 = .returned ()
    ∧ Double.ge (BankAccount.new "123456" (Double.ofInt 1000)).balance (Double.ofInt 0)
        = true
    ∧ Double.ge (deposit (BankAccount.new "123456" (Double.ofInt 1000))
        (Double.ofInt 500)).2.balance (Double.ofInt 0) = true
    ∧ Double.ge (withdraw (BankAccount.new "123456" (Double.ofInt 1000))
        (Double.ofInt 500)).2.balance (Double.ofInt 0) = true
    ∧ Double.ge (closeAccount (BankAccount.new "123456" (Double.ofInt 1000))).2.balance
        (Double.ofInt 0) = true :=
  have h := balance_nonneg_preserved (BankAccount.new "123456" (Double.ofInt 1000))
    (Double.ofInt 500) "123456" (Double.ofInt 1000)
  ⟨by decide, by decide, by decide, by decide, by decide, rfl,
    h.1 (by decide), h.2.1 (by decide) (by decide) (by decide),
    h.2.2.1 (by decide) (by decide), h.2.2.2 (by decide) rfl⟩

/-- On a closed account every call leaves the object exactly as it was, and a
deposit or a withdraw throws InvalidAccountOperationException. -/
lemma step_of_closed (s : BankAccount) (op : Op) (hclosed : s.isActive = false) :
    (step s op).2 = s
    ∧ (op ≠ .closeAccount → (step s op).1 = .threw .InvalidAccountOperationException) := by
  cases s with
  | mk accNum bal act =>
    simp only at hclosed
    subst hclosed
    cases op <;> simp [step, deposit, withdraw, closeAccount]

/-- A call on an account whose balance is a double leaves a balance that is a
double. -/
lemma step_isDouble (s : BankAccount) (op : Op) (h : s.balance.isDouble = true) :
    (step s op).2.balance.isDouble = true := by
  cases op with
  | deposit amount =>
    simp only [step, deposit]
    split_ifs
    · exact h
    · exact h
    · exact Double.isDouble_add _ _
  | withdraw amount =>
    simp only [step, withdraw]
    split_ifs
    · exact h
    · exact h
    · exact Double.isDouble_sub _ _
  | closeAccount => exact h

/-- The trace records every call of the sequence, in order. -/
lemma trace_ops (s : BankAccount) (ops : List Op) :
    (trace s ops).map (fun r => r.1) = ops := by
  induction ops generalizing s with
  | nil => rfl
  | cons op ops ih => simp [trace, ih]

/-- C7: closed is absorbing.  From a closed account, along any finite sequence
of deposit, withdraw and closeAccount calls with any amounts: after every call
the account is closed and has the balance it had when closed, every deposit
and every withdraw throws (InvalidAccountOperationException), and the object
after the whole sequence is the object before it. -/
theorem closed_is_absorbing (s : BankAccount) (ops : List Op)
    (hclosed : s.isActive = false) :
    (∀ r ∈ trace s ops,
        r.2.2.isActive = false ∧ r.2.2.balance = s.balance
        ∧ (r.1 ≠ .closeAccount → r.2.1 = .threw .InvalidAccountOperationException))
    ∧ (trace s ops).map (fun r => r.1) = ops
    ∧ (run s ops).isActive = false
    ∧ (run s ops).balance = s.balance := by
  refine ⟨?_, trace_ops s ops, ?_⟩
  · induction ops with
    | nil => simp [trace]
    | cons op ops ih =>
      intro r hr
      have hstep := step_of_closed s op hclosed
      simp only [trace, List.mem_cons] at hr
      rcases hr with rfl | hr
      · exact ⟨by simp [hstep.1, hclosed], by simp [hstep.1], hstep.2⟩
      · rw [hstep.1] at hr
        exact ih r hr
  · induction ops with
    | nil => exact ⟨hclosed, rfl⟩
    | cons op ops ih =>
      simp only [run, (step_of_closed s op hclosed).1]
      exact ih

/-- An account closed at balance 500, then four more calls. -/
theorem closed_is_absorbing_witness :
    (closeAccount (BankAccount.new "123456" (Double.ofInt 500))).2.isActive = false
    ∧ (∀ r ∈ trace (closeAccount (BankAccount.new "123456" (Double.ofInt 500))).2
          [.withdraw (Double.ofInt 100), .deposit (Double.ofInt (-100)), .closeAccount,
           .deposit (Double.ofInt 1000)],
        r.2.2.isActive = false
        ∧ r.2.2.balance
            = (closeAccount (BankAccount.new "123456" (Double.ofInt 500))).2.balance
        ∧ (r.1 ≠ .closeAccount → r.2.1 = .threw .InvalidAccountOperationException))
    ∧ (run (closeAccount (BankAccount.new "123456" (Double.ofInt 500))).2
          [.withdraw (Double.ofInt 100), .deposit (Double.ofInt (-100)), .closeAccount,
           .deposit (Double.ofInt 1000)]).balance
        = (closeAccount (BankAccount.new "123456" (Double.ofInt 500))).2.balance :=
  ⟨rfl,
    (closed_is_absorbing (closeAccount (BankAccount.new "123456" (Double.ofInt 500))).2
      [.withdraw (Double.ofInt 100), .deposit (Double.ofInt (-100)), .closeAccount,
       .deposit (Double.ofInt 1000)] rfl).1,
    (closed_is_absorbing (closeAccount (BankAccount.new "123456" (Double.ofInt 500))).2
      [.withdraw (Double.ofInt 100), .deposit (Double.ofInt (-100)), .closeAccount,
       .deposit (Double.ofInt 1000)] rfl).2.2.2⟩

/-- C8: frame and atomicity.  deposit and withdraw, whether they return or
throw, leave the account number and the active flag as they were; when they
throw they leave the whole object as it was; closeAccount leaves the account
number and the balance as they were; getBalance leaves the whole object as it
was. -/
theorem frame_and_atomicity (s : BankAccount) (a : Double) :
    ((deposit s a).2.accountNumber = s.accountNumber
      ∧ (deposit s a).2.isActive = s.isActive)
    ∧ ((withdraw s a).2.accountNumber = s.accountNumber
      ∧ (withdraw s a).2.isActive = s.isActive)
    ∧ (∀ e, (deposit s a).1 = .threw e → (deposit s a).2 = s)
    ∧ (∀ e, (withdraw s a).1 = .threw e → (withdraw s a).2 = s)
    ∧ ((closeAccount s).2.accountNumber = s.accountNumber
      ∧ (closeAccount s).2.balance = s.balance)
    ∧ (getBalance s).2 = s := by
  refine ⟨?_, ?_, ?_, ?_, ⟨rfl, rfl⟩, rfl⟩
  · unfold deposit; split_ifs <;> simp
  · unfold withdraw; split_ifs <;> simp
  · unfold deposit; split_ifs <;> simp
  · unfold withdraw; split_ifs <;> simp

/-- On an active account with balance 500, deposit(-100) throws and leaves the
object as it was; withdraw(-100) returns and leaves the flag set. -/
theorem frame_and_atomicity_witness :
    (deposit (BankAccount.new "123456" (Double.ofInt 500)) (Double.ofInt (-100))).1
        = .threw .NegativeDepositException
    ∧ (deposit (BankAccount.new "123456" (Double.ofInt 500)) (Double.ofInt (-100))).2
        = BankAccount.new "123456" (Double.ofInt 500)
    ∧ (withdraw (BankAccount.new "123456" (Double.ofInt 500)) (Double.ofInt (-100))).1
        = .returned ()
    ∧ (withdraw (BankAccount.new "123456" (Double.ofInt 500))
        (Double.ofInt (-100))).2.isActive = true :=
  have hd : (deposit (BankAccount.new "123456" (Double.ofInt 500))
      (Double.ofInt (-100))).1 = .threw .NegativeDepositException := by decide
  ⟨hd,
    (frame_and_atomicity (BankAccount.new "123456" (Double.ofInt 500))
      (Double.ofInt (-100))).2.2.1 _ hd,
    by decide,
    (frame_and_atomicity (BankAccount.new "123456" (Double.ofInt 500))
      (Double.ofInt (-100))).2.1.2⟩

/-- C9: closeAccount is total and idempotent: on every object it returns
normally, the object after it is inactive, and closing again gives the same
result as closing once. -/
theorem closeAccount_total_idempotent (s : BankAccount) :
    (closeAccount s).1 = .returned ()
    ∧ (closeAccount s).2.isActive = false
    ∧ closeAccount (closeAccount s).2 = closeAccount s
    ∧ run s [.closeAccount, .closeAccount] = run s [.closeAccount] :=
  ⟨rfl, rfl, rfl, rfl⟩

/-- C10: the scenario of the driver with initial balance 0.  The account is
created with balance 0; deposit(1000) returns and the balance is 1000;
withdraw(500) returns and the balance is 500; deposit(-100) throws
NegativeDepositException and the balance is 500; closeAccount returns;
withdraw(100) throws InvalidAccountOperationException and the balance is 500.
The function main on input 0 makes these calls, prints the balance 500, and
catches each of the two exceptions in the handler written for it.  The doubles
converted from 0, 500 and 1000 stand for these numbers. -/
theorem driver_scenario :
    trace (BankAccount.new "123456" (Double.ofInt 0))
        [.deposit (Double.ofInt 1000), .withdraw (Double.ofInt 500),
         .deposit (Double.ofInt (-100)), .closeAccount, .withdraw (Double.ofInt 100)]
      = [(.deposit (Double.ofInt 1000), .returned (),
            ⟨"123456", Double.ofInt 1000, true⟩),
         (.withdraw (Double.ofInt 500), .returned (),
            ⟨"123456", Double.ofInt 500, true⟩),
         (.deposit (Double.ofInt (-100)), .threw .NegativeDepositException,
            ⟨"123456", Double.ofInt 500, true⟩),
         (.closeAccount, .returned (), ⟨"123456", Double.ofInt 500, false⟩),
         (.withdraw (Double.ofInt 100), .threw .InvalidAccountOperationException,
            ⟨"123456", Double.ofInt 500, false⟩)]
    ∧ main (Double.ofInt 0)
      = ([.cout "Enter initial balance: ",
          .cout "Bank Account Created: #123456\n",
          .cout "Depositing $1000...\n",
          .cout "Withdrawing $500...\n",
          .coutBalance (Double.ofInt 500),
          .cout "\nTesting negative deposit...\n",
          .cerr "Caught NegativeDepositException: Negative deposit attempt\n",
          .cout "\nClosing account...\n",
          .cout "Testing transaction on a closed account...\n",
          .cerr ("Caught InvalidAccountOperationException: "
            ++ "Invalid operation on a closed account\n")],
         ⟨"123456", Double.ofInt 500, false⟩)
    ∧ (Double.ofInt 0).value = 0 ∧ (Double.ofInt 500).value = 500
    ∧ (Double.ofInt 1000).value = 1000 := by
  have h500 : Double.ofInt 500 = .finite false (500 * 2 ^ 1074) := by decide
  have h1000 : Double.ofInt 1000 = .finite false (1000 * 2 ^ 1074) := by decide
  refine ⟨by decide, by decide, ?_, ?_, ?_⟩
  · simp [Double.value]
  · rw [h500, Double.value_finite_mul]; simp
  · rw [h1000, Double.value_finite_mul]; simp

/-- C11, as stated, fails: on an active account with balance 2^53, which is
≥ 0, the withdrawal of -1 returns normally and leaves 2^53: the new balance is
not the balance before minus -1 and is not strictly above the balance
before. -/
theorem withdraw_negative_absorbed :
    (BankAccount.new "123456" (Double.ofInt (2 ^ 53))).isActive = true
    ∧ Double.ge (BankAccount.new "123456" (Double.ofInt (2 ^ 53))).balance (Double.ofInt 0)
        = true
    ∧ Double.lt (Double.ofInt (-1)) (Double.ofInt 0) = true
    ∧ (Double.ofInt (2 ^ 53)).isDouble = true ∧ (Double.ofInt (-1)).isDouble = true
    ∧ (withdraw (BankAccount.new "123456" (Double.ofInt (2 ^ 53))) (Double.ofInt (-1))).1
        = .returned ()
    ∧ (getBalance (withdraw (BankAccount.new "123456" (Double.ofInt (2 ^ 53)))
          (Double.ofInt (-1))).2).1 = .returned (Double.ofInt (2 ^ 53))
    ∧ Double.gt (withdraw (BankAccount.new "123456" (Double.ofInt (2 ^ 53)))
          (Double.ofInt (-1))).2.balance
        (BankAccount.new "123456" (Double.ofInt (2 ^ 53))).balance = false
    ∧ (withdraw (BankAccount.new "123456" (Double.ofInt (2 ^ 53)))
          (Double.ofInt (-1))).2.balance.value
        ≠ (BankAccount.new "123456" (Double.ofInt (2 ^ 53))).balance.value
          - (Double.ofInt (-1)).value := by
  have h1 : (withdraw (BankAccount.new "123456" (Double.ofInt (2 ^ 53)))
      (Double.ofInt (-1))).2.balance = .finite false (2 ^ 53 * 2 ^ 1074) := by decide
  have h2 : (BankAccount.new "123456" (Double.ofInt (2 ^ 53))).balance
      = .finite false (2 ^ 53 * 2 ^ 1074) := by decide
  have h3 : Double.ofInt (-1) = .finite true (1 * 2 ^ 1074) := by decide
  refine ⟨rfl, by decide, by decide, by decide, by decide, by decide, by decide,
    by decide, ?_⟩
  rw [h1, h2, h3]
  simp only [Double.value_finite_mul]
  norm_num

/-- C11, amended: a negative withdrawal is not rejected.  On an active account
whose balance is a double ≥ 0, a withdrawal of an amount a < 0 returns normally
(it throws neither OverdrawException nor anything else), the balance
afterwards is the double difference of the balance before and a, and that is
not below the balance before; it is the exact difference, and strictly above
the balance before, whenever the difference is computed without rounding. -/
theorem withdraw_negative_succeeds (s : BankAccount) (a : Double)
    (hactive : s.isActive = true) (hdouble : s.balance.isDouble = true)
    (hbal : Double.ge s.balance (Double.ofInt 0) = true)
    (ha : Double.lt a (Double.ofInt 0) = true) :
    (withdraw s a).1 = .returned ()
    ∧ (getBalance (withdraw s a).2).1 = .returned (Double.sub s.balance a)
    ∧ (withdraw s a).2 = { s with balance := Double.sub s.balance a }
    ∧ Double.ge (withdraw s a).2.balance s.balance = true
    ∧ (Double.exactSub s.balance a = true →
        Double.gt (withdraw s a).2.balance s.balance = true
        ∧ (withdraw s a).2.balance.value = s.balance.value - a.value) := by
  have hgt : Double.gt a s.balance = false := by
    cases hb : s.balance with
    | nan => simp [Double.gt, Double.lt]
    | inf sb =>
      rw [hb] at hbal
      cases a <;> simp_all [Double.gt, Double.ge, Double.le, Double.lt]
    | finite sb nb =>
      rw [hb] at hbal
      cases a with
      | nan => simp [Double.lt] at ha
      | inf sa => simp_all [Double.gt, Double.ge, Double.le, Double.lt]
      | finite sa na =>
        have hb0 : 0 ≤ Double.signed sb nb := (Double.le_zero_finite sb nb).mp hbal
        have ha0 : Double.signed sa na < 0 := by simpa [Double.lt] using ha
        simp only [Double.gt, Double.lt, decide_eq_false_iff_not]
        omega
  have hw : withdraw s a = (.returned (), { s with balance := Double.sub s.balance a }) := by
    simp [withdraw, hactive, hgt]
  rw [hw]
  exact ⟨rfl, rfl, rfl, Double.le_sub_of_neg _ _ hdouble hbal ha,
    fun hex => ⟨Double.lt_sub_of_neg_exact _ _ hbal ha hex,
      (Double.value_sub_of_exact _ _ hex).1⟩⟩

/-- An active account with balance 500 accepts withdraw(-100) and then has
balance 600. -/
theorem withdraw_negative_succeeds_witness :
    (BankAccount.new "123456" (Double.ofInt 500)).isActive = true
    ∧ (BankAccount.new "123456" (Double.ofInt 500)).balance.isDouble = true
    ∧ Double.ge (BankAccount.new "123456" (Double.ofInt 500)).balance (Double.ofInt 0)
        = true
    ∧ Double.lt (Double.ofInt (-100)) (Double.ofInt 0) = true
    ∧ Double.exactSub (BankAccount.new "123456" (Double.ofInt 500)).balance
        (Double.ofInt (-100)) = true
    ∧ (withdraw (BankAccount.new "123456" (Double.ofInt 500)) (Double.ofInt (-100))).1
        = .returned ()
    ∧ (getBalance (withdraw (BankAccount.new "123456" (Double.ofInt 500))
          (Double.ofInt (-100))).2).1 = .returned (Double.ofInt 600)
    ∧ Double.gt (withdraw (BankAccount.new "123456" (Double.ofInt 500))
          (Double.ofInt (-100))).2.balance
        (BankAccount.new "123456" (Double.ofInt 500)).balance = true :=
  have h := withdraw_negative_succeeds (BankAccount.new "123456" (Double.ofInt 500))
    (Double.ofInt (-100)) rfl (by decide) (by decide) (by decide)
  ⟨rfl, by decide, by decide, by decide, by decide, h.1, by decide,
    (h.2.2.2.2 (by decide)).1⟩

/-- C12: construction performs no validation.  For every identifier and every
initial balance b, negative ones included, the constructor yields an active
account with that identifier whose getBalance returns exactly b. -/
theorem constructor_no_validation (accNum : String) (b : Double) :
    (BankAccount.new accNum b).isActive = true
    ∧ (getBalance (BankAccount.new accNum b)).1 = .returned b
    ∧ (BankAccount.new accNum b).accountNumber = accNum
    ∧ (getBalance (BankAccount.new "123456" (Double.ofInt (-5)))).1
        = .returned (Double.ofInt (-5)) :=
  ⟨rfl, rfl, rfl, rfl⟩

/-- C14, as stated, fails: on an active account with balance 100 the call
withdraw(NaN) returns normally and the balance afterwards is NaN, which is not
≥ 0; on an active account whose balance is +infinity the call
withdraw(+infinity) returns normally and leaves NaN as well. -/
theorem withdraw_success_leaves_nan :
    (BankAccount.new "123456" (Double.ofInt 100)).isActive = true
    ∧ (withdraw (BankAccount.new "123456" (Double.ofInt 100)) Double.nan).1 = .returned ()
    ∧ Double.ge (withdraw (BankAccount.new "123456" (Double.ofInt 100))
          Double.nan).2.balance (Double.ofInt 0) = false
    ∧ (withdraw (BankAccount.new "123456" (Double.inf false)) (Double.inf false)).1
        = .returned ()
    ∧ Double.ge (withdraw (BankAccount.new "123456" (Double.inf false))
          (Double.inf false)).2.balance (Double.ofInt 0) = false := by
  decide

/-- C14, amended: on an active account, whatever its balance before (a negative
one included) and whatever the amount (a negative one included), when withdraw
returns normally and the new balance is not NaN, the balance afterwards is
≥ 0; the new balance is not NaN when the balance before is not NaN and the
amount is finite.  A negative balance does persist through a deposit that
returns normally: deposit(1) onto -5. -/
theorem withdraw_success_balance_nonneg (s : BankAccount) (a : Double)
    (hactive : s.isActive = true) (hok : (withdraw s a).1 = .returned ()) :
    ((withdraw s a).2.balance.isNaN = false →
        Double.ge (withdraw s a).2.balance (Double.ofInt 0) = true)
    ∧ (s.balance.isNaN = false → a.isFinite = true →
        Double.ge (withdraw s a).2.balance (Double.ofInt 0) = true)
    ∧ (deposit (BankAccount.new "123456" (Double.ofInt (-5))) (Double.ofInt 1)).1
        = .returned ()
    ∧ Double.lt (deposit (BankAccount.new "123456" (Double.ofInt (-5)))
        (Double.ofInt 1)).2.balance (Double.ofInt 0) = true := by
  have _ := hactive
  have key : (withdraw s a).2.balance.isNaN = false →
      Double.ge (withdraw s a).2.balance (Double.ofInt 0) = true := by
    unfold withdraw at hok ⊢
    split_ifs at hok ⊢ with h1 h2
    intro hnan
    have h2f : Double.gt a s.balance = false := by simpa using h2
    exact Double.le_zero_sub _ _ h2f hnan
  refine ⟨key, fun hb hfin => key ?_, by decide, by decide⟩
  unfold withdraw at hok ⊢
  split_ifs at hok ⊢ with h1 h2
  exact Double.isNaN_sub_finite _ _ hb hfin

/-- An active account with the negative balance -5 accepts withdraw(-7) and then
has balance 2. -/
theorem withdraw_success_balance_nonneg_witness :
    (BankAccount.new "123456" (Double.ofInt (-5))).isActive = true
    ∧ (withdraw (BankAccount.new "123456" (Double.ofInt (-5))) (Double.ofInt (-7))).1
        = .returned ()
    ∧ (withdraw (BankAccount.new "123456" (Double.ofInt (-5)))
        (Double.ofInt (-7))).2.balance.isNaN = false
    ∧ (BankAccount.new "123456" (Double.ofInt (-5))).balance.isNaN = false
    ∧ (Double.ofInt (-7)).isFinite = true
    ∧ (getBalance (withdraw (BankAccount.new "123456" (Double.ofInt (-5)))
        (Double.ofInt (-7))).2).1 = .returned (Double.ofInt 2)
    ∧ Double.ge (withdraw (BankAccount.new "123456" (Double.ofInt (-5)))
        (Double.ofInt (-7))).2.balance (Double.ofInt 0) = true :=
  have hok : (withdraw (BankAccount.new "123456" (Double.ofInt (-5)))
      (Double.ofInt (-7))).1 = .returned () := by decide
  have h := withdraw_success_balance_nonneg (BankAccount.new "123456" (Double.ofInt (-5)))
    (Double.ofInt (-7)) rfl hok
  ⟨rfl, hok, by decide, by decide, by decide, by decide, h.1 (by decide)⟩

/-- A deposit either throws and leaves the object as it was, or returns and
sets the balance to the double sum. -/
lemma deposit_cases (s : BankAccount) (a : Double) :
    (∃ e, deposit s a = (.threw e, s))
    ∨ deposit s a = (.returned (), { s with balance := Double.add s.balance a }) := by
  unfold deposit
  split_ifs
  · exact Or.inl ⟨_, rfl⟩
  · exact Or.inl ⟨_, rfl⟩
  · exact Or.inr rfl

/-- A withdrawal either throws and leaves the object as it was, or returns and
sets the balance to the double difference. -/
lemma withdraw_cases (s : BankAccount) (a : Double) :
    (∃ e, withdraw s a = (.threw e, s))
    ∨ withdraw s a = (.returned (), { s with balance := Double.sub s.balance a }) := by
  unfold withdraw
  split_ifs
  · exact Or.inl ⟨_, rfl⟩
  · exact Or.inl ⟨_, rfl⟩
  · exact Or.inr rfl

/-- Conservation along a sequence in which every new balance is computed
without rounding. -/
lemma run_value_of_exact (s : BankAccount) (ops : List Op)
    (hfin : s.balance.isFinite = true) (hexact : exactRun s ops = true) :
    (run s ops).balance.isFinite = true
    ∧ (run s ops).balance.value
      = s.balance.value + succeededDeposits (trace s ops)
          - succeededWithdrawals (trace s ops) := by
  induction ops generalizing s with
  | nil => simp [run, trace, succeededDeposits, succeededWithdrawals, hfin]
  | cons op ops ih =>
    cases op with
    | deposit a =>
      simp only [exactRun, Bool.and_eq_true] at hexact
      obtain ⟨h1, h2⟩ := hexact
      simp only [run, trace, step]
      rcases deposit_cases s a with ⟨e, hd⟩ | hd
      · rw [hd] at h2 ⊢
        have := ih s hfin h2
        simp only [succeededDeposits, succeededWithdrawals]
        exact this
      · rw [hd] at h1 h2 ⊢
        simp only [if_true] at h1
        have hv := Double.value_add_of_exact _ _ h1
        have := ih _ hv.2 h2
        simp only [succeededDeposits, succeededWithdrawals]
        refine ⟨this.1, ?_⟩
        rw [this.2, hv.1]
        ring
    | withdraw a =>
      simp only [exactRun, Bool.and_eq_true] at hexact
      obtain ⟨h1, h2⟩ := hexact
      simp only [run, trace, step]
      rcases withdraw_cases s a with ⟨e, hd⟩ | hd
      · rw [hd] at h2 ⊢
        have := ih s hfin h2
        simp only [succeededDeposits, succeededWithdrawals]
        exact this
      · rw [hd] at h1 h2 ⊢
        simp only [if_true] at h1
        have hv := Double.value_sub_of_exact _ _ h1
        have := ih _ hv.2 h2
        simp only [succeededDeposits, succeededWithdrawals]
        refine ⟨this.1, ?_⟩
        rw [this.2, hv.1]
        ring
    | closeAccount =>
      simp only [exactRun] at hexact
      simp only [run, trace, step, succeededDeposits, succeededWithdrawals]
      exact ih _ hfin hexact

/-- C16, as stated, fails: from balance 1, deposit(2^53) and withdraw(2^53) both
return normally, so the deposits that succeeded sum to 2^53 and so do the
withdrawals that succeeded, yet the final balance is 0 and not
1 + 2^53 - 2^53. -/
theorem balance_not_conserved :
    trace (BankAccount.new "123456" (Double.ofInt 1))
          [.deposit (Double.ofInt (2 ^ 53)), .withdraw (Double.ofInt (2 ^ 53))]
        = [(.deposit (Double.ofInt (2 ^ 53)), .returned (),
              ⟨"123456", Double.ofInt (2 ^ 53), true⟩),
           (.withdraw (Double.ofInt (2 ^ 53)), .returned (),
              ⟨"123456", Double.ofInt 0, true⟩)]
    ∧ (Double.ofInt 1).isDouble = true ∧ (Double.ofInt (2 ^ 53)).isDouble = true
    ∧ (run (BankAccount.new "123456" (Double.ofInt 1))
          [.deposit (Double.ofInt (2 ^ 53)), .withdraw (Double.ofInt (2 ^ 53))]).balance.value
        ≠ (BankAccount.new "123456" (Double.ofInt 1)).balance.value
          + succeededDeposits (trace (BankAccount.new "123456" (Double.ofInt 1))
              [.deposit (Double.ofInt (2 ^ 53)), .withdraw (Double.ofInt (2 ^ 53))])
          - succeededWithdrawals (trace (BankAccount.new "123456" (Double.ofInt 1))
              [.deposit (Double.ofInt (2 ^ 53)), .withdraw (Double.ofInt (2 ^ 53))]) := by
  have htrace : trace (BankAccount.new "123456" (Double.ofInt 1))
      [.deposit (Double.ofInt (2 ^ 53)), .withdraw (Double.ofInt (2 ^ 53))]
      = [(.deposit (Double.ofInt (2 ^ 53)), .returned (),
            ⟨"123456", Double.ofInt (2 ^ 53), true⟩),
         (.withdraw (Double.ofInt (2 ^ 53)), .returned (),
            ⟨"123456", Double.ofInt 0, true⟩)] := by decide
  have hrun : (run (BankAccount.new "123456" (Double.ofInt 1))
      [.deposit (Double.ofInt (2 ^ 53)), .withdraw (Double.ofInt (2 ^ 53))]).balance
      = .finite false (0 * 2 ^ 1074) := by decide
  have h1 : (BankAccount.new "123456" (Double.ofInt 1)).balance
      = .finite false (1 * 2 ^ 1074) := by decide
  have h53 : Double.ofInt (2 ^ 53) = .finite false (2 ^ 53 * 2 ^ 1074) := by decide
  refine ⟨htrace, by decide, by decide, ?_⟩
  rw [htrace, hrun, h1]
  simp only [succeededDeposits, succeededWithdrawals, h53, Double.value_finite_mul]
  norm_num

/-- C16, amended: conservation.  For every account with a finite balance and
every finite sequence of deposit, withdraw and closeAccount calls in which
each deposit and withdrawal that returns normally computes its new balance
without rounding, the balance after the sequence is finite and is, as an exact
number, the balance before it, plus the sum of the amounts of the deposits
that returned normally, minus the sum of the amounts of the withdrawals that
returned normally; calls that threw and closeAccount add nothing to either
sum.  In the scenario of the driver from balance 0 no call rounds and the two
sums are 1000 and 500. -/
theorem balance_conservation (s : BankAccount) (ops : List Op)
    (hfin : s.balance.isFinite = true) (hexact : exactRun s ops = true) :
    (run s ops).balance.isFinite = true
    ∧ (run s ops).balance.value
      = s.balance.value + succeededDeposits (trace s ops)
          - succeededWithdrawals (trace s ops)
    ∧ exactRun (BankAccount.new "123456" (Double.ofInt 0))
        [.deposit (Double.ofInt 1000), .withdraw (Double.ofInt 500),
         .deposit (Double.ofInt (-100)), .closeAccount, .withdraw (Double.ofInt 100)] = true
    ∧ succeededDeposits (trace (BankAccount.new "123456" (Double.ofInt 0))
        [.deposit (Double.ofInt 1000), .withdraw (Double.ofInt 500),
         .deposit (Double.ofInt (-100)), .closeAccount, .withdraw (Double.ofInt 100)])
      = 1000
    ∧ succeededWithdrawals (trace (BankAccount.new "123456" (Double.ofInt 0))
        [.deposit (Double.ofInt 1000), .withdraw (Double.ofInt 500),
         .deposit (Double.ofInt (-100)), .closeAccount, .withdraw (Double.ofInt 100)])
      = 500 := by
  have htrace : trace (BankAccount.new "123456" (Double.ofInt 0))
      [.deposit (Double.ofInt 1000), .withdraw (Double.ofInt 500),
       .deposit (Double.ofInt (-100)), .closeAccount, .withdraw (Double.ofInt 100)]
      = [(.deposit (.finite false (1000 * 2 ^ 1074)), .returned (),
            ⟨"123456", Double.ofInt 1000, true⟩),
         (.withdraw (.finite false (500 * 2 ^ 1074)), .returned (),
            ⟨"123456", Double.ofInt 500, true⟩),
         (.deposit (Double.ofInt (-100)), .threw .NegativeDepositException,
            ⟨"123456", Double.ofInt 500, true⟩),
         (.closeAccount, .returned (), ⟨"123456", Double.ofInt 500, false⟩),
         (.withdraw (Double.ofInt 100), .threw .InvalidAccountOperationException,
            ⟨"123456", Double.ofInt 500, false⟩)] := by decide
  refine ⟨(run_value_of_exact s ops hfin hexact).1, (run_value_of_exact s ops hfin hexact).2,
    by decide, ?_, ?_⟩
  · rw [htrace]
    simp only [succeededDeposits, Double.value_finite_mul]
    norm_num
  · rw [htrace]
    simp only [succeededWithdrawals, Double.value_finite_mul]
    norm_num

/-- From balance 1000: a deposit of 500, a withdrawal of 2000 that overdraws, a
withdrawal of 250, closeAccount. -/
theorem balance_conservation_witness :
    (BankAccount.new "123456" (Double.ofInt 1000)).balance.isFinite = true
    ∧ exactRun (BankAccount.new "123456" (Double.ofInt 1000))
        [.deposit (Double.ofInt 500), .withdraw (Double.ofInt 2000),
         .withdraw (Double.ofInt 250), .closeAccount] = true
    ∧ (run (BankAccount.new "123456" (Double.ofInt 1000))
        [.deposit (Double.ofInt 500), .withdraw (Double.ofInt 2000),
         .withdraw (Double.ofInt 250), .closeAccount]).balance.value
      = (BankAccount.new "123456" (Double.ofInt 1000)).balance.value
        + succeededDeposits (trace (BankAccount.new "123456" (Double.ofInt 1000))
            [.deposit (Double.ofInt 500), .withdraw (Double.ofInt 2000),
             .withdraw (Double.ofInt 250), .closeAccount])
        - succeededWithdrawals (trace (BankAccount.new "123456" (Double.ofInt 1000))
            [.deposit (Double.ofInt 500), .withdraw (Double.ofInt 2000),
             .withdraw (Double.ofInt 250), .closeAccount]) :=
  have h := balance_conservation (BankAccount.new "123456" (Double.ofInt 1000))
    [.deposit (Double.ofInt 500), .withdraw (Double.ofInt 2000),
     .withdraw (Double.ofInt 250), .closeAccount] (by decide) (by decide)
  ⟨by decide, by decide, h.2.1⟩

end Assignment3
